import Mathlib

/-!
# Verification of the `snowflake` Go package

Shallow embedding of `snowflake.go` and proofs about it.

Modelling conventions:
* Go `int64` values (`StartTime`, `lastTimestamp`, tick values) are modelled as `Int`.
* Go `uint64` values are modelled as `Nat`; operations that can wrap in `uint64`
  (shifts, the `int64 → uint64` conversion) carry an explicit `% 2 ^ 64`
  (the conversion `uint64(x)` for `x : int64` is `x` modulo `2 ^ 64`, i.e. `Int.emod`,
  which is what `%` on `Int` denotes in Lean).
* Go `uint16` (`Sequence`) is modelled as `Nat`; the addition `sf.Sequence + 1`
  wraps modulo `2 ^ 16`, written explicitly.
* `time.Time` is modelled by `GoTime`: its `UnixNano` value together with its
  `IsZero` flag.  `t.UTC()` does not change the instant and is dropped.
* `NextID` reads the wall clock only through `timeToSnowflakeUnit(time.Now())`
  (the additional `time.Now()` inside the rollover branch only computes a sleep
  duration, which affects neither the state nor the returned value, so the sleep
  is omitted).  `NextID` is therefore parameterised by `nowUnits`, the value
  `timeToSnowflakeUnit(time.Now())` would have returned at that call.
* The mutex makes each `NextID` call an atomic critical section; a sequential
  trace of calls (`runNextIDs`), taken in lock-acquisition order, is the
  linearisation of any concurrent execution.
* The package-global variable `epochStart` is mutable in the source
  (`NewSnowflake` reassigns it); `NewSnowflake` is therefore modelled as taking
  the current value of the global and returning its new value alongside the
  constructed instance.
-/

/-- `TotalBits = 64`. -/
def TotalBits : Nat := 64

/-- `EpochBits = 42`. -/
def EpochBits : Nat := 42

/-- `MachineIDBits = 10`. -/
def MachineIDBits : Nat := 10

/-- `SequenceBits = 12`. -/
def SequenceBits : Nat := 12

/-- `maxNodeID = int(1<<MachineIDBits - 1)` (Go precedence: `(1 << MachineIDBits) - 1`). -/
def maxNodeID : Int := (2 : Int) ^ MachineIDBits - 1

/-- Model of Go `time.Time`: the `UnixNano` value and the `IsZero` flag. -/
structure GoTime where
  nano : Int
  isZero : Bool
deriving DecidableEq

/-- Go `t.After(u)`: `t` is strictly later than `u`. -/
def GoTime.After (t u : GoTime) : Bool := decide (u.nano < t.nano)

/-- `const snowflakeTimeUnit = 1e6` nanoseconds, i.e. 1 millisecond. -/
def snowflakeTimeUnit : Int := 1000000

/-- The initial value of the package-global
`var epochStart = time.Date(2019, 4, 1, 0, 0, 0, 0, time.UTC)`
(`UnixNano = 1554076800 * 10^9`). -/
def epochStartDefault : GoTime := ⟨1554076800000000000, false⟩

/-- The Go zero `time.Time{}` (its `UnixNano` value; only its `IsZero` flag and
its being far in the past matter to the code). -/
def zeroGoTime : GoTime := ⟨-6795364578871345152, true⟩

/-- `timeToSnowflakeUnit(t) = t.UTC().UnixNano() / snowflakeTimeUnit`
(Go `int64` division truncates toward zero, which is `Int.tdiv`). -/
def timeToSnowflakeUnit (t : GoTime) : Int := Int.tdiv t.nano snowflakeTimeUnit

/-- The `Snowflake` struct (the mutex is represented by the sequential trace
semantics of `runNextIDs`, not as data). -/
structure Snowflake where
  StartTime : Int
  MachineID : Nat
  Sequence : Nat
  lastTimestamp : Int
deriving DecidableEq

/-- `NewSnowflake(starttime, machineID)`.  Takes and returns the package-global
`epochStart` (the source reassigns it in the non-zero branch, marked `// RM ME`).
`new(Snowflake)` zero-initialises `Sequence` and `lastTimestamp`.
`sf.MachineID = uint64(machineID & maxNodeID)`: two's-complement AND
(`Int.land`) followed by the `int → uint64` conversion (`% 2^64`). -/
def NewSnowflake (gEpochStart : GoTime) (now : GoTime) (starttime : GoTime)
    (machineID : Int) : Option Snowflake × GoTime :=
  if starttime.After now then
    -- Cannot be later than now
    (none, gEpochStart)
  else
    let startTimeVal : Int :=
      if starttime.isZero then timeToSnowflakeUnit gEpochStart
      else timeToSnowflakeUnit starttime
    let gEpochStart' : GoTime := if starttime.isZero then gEpochStart else starttime
    let mid : Nat := ((Int.land machineID maxNodeID) % (2 : Int) ^ 64).toNat
    (some { StartTime := startTimeVal, MachineID := mid, Sequence := 0,
            lastTimestamp := 0 }, gEpochStart')

/-- `elapsedTime(startTime) = timeToSnowflakeUnit(time.Now()) - startTime`,
with `nowUnits` standing for `timeToSnowflakeUnit(time.Now())`. -/
def elapsedTime (startTime nowUnits : Int) : Int := nowUnits - startTime

/-- The state update the body of `NextID` performs before its two guards:
tick advance resets the sequence; otherwise the `uint16` sequence is
incremented (wrapping mod `2^16`) and masked with `1<<SequenceBits - 1`,
and on wrap to `0` the timestamp is bumped by one (the subsequent sleep has
no effect on state or result and is omitted). -/
def nextState (sf : Snowflake) (nowUnits : Int) : Snowflake :=
  let currentTimestamp := elapsedTime sf.StartTime nowUnits
  if sf.lastTimestamp < currentTimestamp then
    { sf with lastTimestamp := currentTimestamp, Sequence := 0 }
  else
    let seq := ((sf.Sequence + 1) % 2 ^ 16) &&& ((1 <<< SequenceBits) - 1)
    if seq = 0 then
      { sf with Sequence := seq, lastTimestamp := sf.lastTimestamp + 1 }
    else
      { sf with Sequence := seq }

/-- The id-packing tail of `NextID`:
`id = uint64(sf.lastTimestamp) << (MachineIDBits+SequenceBits)`;
`id |= sf.MachineID << SequenceBits`; `id |= uint64(sf.Sequence)`.
`uint64` shifts wrap mod `2^64`; `uint64(uint16)` is value-preserving. -/
def packID (sf : Snowflake) : Nat :=
  let id0 := ((sf.lastTimestamp % (2 : Int) ^ 64).toNat <<< (MachineIDBits + SequenceBits)) % 2 ^ 64
  let id1 := id0 ||| ((sf.MachineID <<< SequenceBits) % 2 ^ 64)
  id1 ||| sf.Sequence

/-- The three ways a `NextID` call can end: returning an id, returning the
"maximum timestamp has been reached" error (with id `0`), or hitting the
defensive `panic("Max sequence has been reached")`. -/
inductive NextIDResult where
  | ok (id : Nat)
  | epochExhausted
  | panicked
deriving DecidableEq

/-- `(sf *Snowflake) NextID() (uint64, error)`, parameterised by the clock
reading `nowUnits` (see module docstring).  The whole body runs under the
mutex. -/
def NextID (sf : Snowflake) (nowUnits : Int) : Snowflake × NextIDResult :=
  let sf1 := nextState sf nowUnits
  if sf1.Sequence > (1 <<< SequenceBits) - 1 then (sf1, .panicked)
  else if sf1.lastTimestamp ≥ (2 : Int) ^ EpochBits then (sf1, .epochExhausted)
  else (sf1, .ok (packID sf1))

/-- A sequence of `NextID` calls in lock-acquisition order, with the clock
reading of each call given by the corresponding list entry. -/
def runNextIDs : Snowflake → List Int → Snowflake × List NextIDResult
  | sf, [] => (sf, [])
  | sf, t :: rest =>
    let step := NextID sf t
    let next := runNextIDs step.1 rest
    (next.1, step.2 :: next.2)

/-- The identifiers of the successful calls of a trace, in call order. -/
def succIDs (rs : List NextIDResult) : List Nat :=
  rs.filterMap fun r => match r with | .ok id => some id | _ => none

/-- `DecomposeParts(id)`.  In Go, `&` and `>>` share precedence level 5
(left-associative), so `id & maskMachineID >> SequenceBits` parses as
`(id & maskMachineID) >> SequenceBits`. -/
def DecomposeParts (id : Nat) : Nat × Nat × Nat :=
  let maskMachineID := ((1 <<< MachineIDBits) - 1) <<< SequenceBits
  let maskSequence := (1 <<< SequenceBits) - 1
  let t := id >>> (MachineIDBits + SequenceBits)
  let mid := (id &&& maskMachineID) >>> SequenceBits
  let seq := id &&& maskSequence
  (t, mid, seq)

/-- State invariant of every `Snowflake` reachable from `NewSnowflake`:
a non-negative timestamp, an in-range sequence and a masked machine id. -/
def SfInv (sf : Snowflake) : Prop :=
  0 ≤ sf.lastTimestamp ∧ sf.Sequence ≤ 4095 ∧ sf.MachineID ≤ 1023

/-- The value `packID` produces when all fields are in range: the fields read
as one big-endian number.  Strictly increasing along every trace. -/
def idKey (sf : Snowflake) : Nat :=
  sf.lastTimestamp.toNat * 2 ^ 22 + sf.MachineID * 2 ^ 12 + sf.Sequence

/-! ### Helper lemmas -/

lemma and_seqMask (x : Nat) : x &&& ((1 <<< SequenceBits) - 1) = x % 4096 := by
  have h : ((1 <<< SequenceBits) - 1 : Nat) = 2 ^ 12 - 1 := by decide
  rw [h, Nat.and_pow_two_sub_one_eq_mod]

/-- Unconditional characterisation of the state update. -/
lemma nextState_cases (sf : Snowflake) (t : Int) :
    nextState sf t =
      if sf.lastTimestamp < t - sf.StartTime then
        { sf with lastTimestamp := t - sf.StartTime, Sequence := 0 }
      else if ((sf.Sequence + 1) % 2 ^ 16) % 4096 = 0 then
        { sf with Sequence := ((sf.Sequence + 1) % 2 ^ 16) % 4096,
                  lastTimestamp := sf.lastTimestamp + 1 }
      else
        { sf with Sequence := ((sf.Sequence + 1) % 2 ^ 16) % 4096 } := by
  simp only [nextState, elapsedTime, and_seqMask]

/-- Characterisation of the state update on states with an in-range sequence. -/
lemma nextState_eq (sf : Snowflake) (t : Int) (h : sf.Sequence ≤ 4095) :
    nextState sf t =
      if sf.lastTimestamp < t - sf.StartTime then
        { sf with lastTimestamp := t - sf.StartTime, Sequence := 0 }
      else if (sf.Sequence + 1) % 4096 = 0 then
        { sf with Sequence := 0, lastTimestamp := sf.lastTimestamp + 1 }
      else
        { sf with Sequence := (sf.Sequence + 1) % 4096 } := by
  rw [nextState_cases]
  have h1 : (sf.Sequence + 1) % 2 ^ 16 = sf.Sequence + 1 := Nat.mod_eq_of_lt (by omega)
  rw [h1]
  by_cases hc : sf.lastTimestamp < t - sf.StartTime
  · simp [hc]
  · by_cases hz : (sf.Sequence + 1) % 4096 = 0
    · simp [hc, hz]
    · simp [hc, hz]

lemma nextState_MachineID (sf : Snowflake) (t : Int) :
    (nextState sf t).MachineID = sf.MachineID := by
  rw [nextState_cases]
  split
  · rfl
  · split <;> rfl

lemma nextState_StartTime (sf : Snowflake) (t : Int) :
    (nextState sf t).StartTime = sf.StartTime := by
  rw [nextState_cases]
  split
  · rfl
  · split <;> rfl

lemma nextState_Sequence_le (sf : Snowflake) (t : Int) :
    (nextState sf t).Sequence ≤ 4095 := by
  rw [nextState_cases]
  split
  · exact Nat.zero_le _
  · split <;> { show _ % 4096 ≤ 4095; omega }

lemma nextState_lastTimestamp_mono (sf : Snowflake) (t : Int) :
    sf.lastTimestamp ≤ (nextState sf t).lastTimestamp := by
  rw [nextState_cases]
  split
  · next hlt => exact le_of_lt hlt
  · split
    · show sf.lastTimestamp ≤ sf.lastTimestamp + 1
      omega
    · exact le_refl _

lemma NextID_fst (sf : Snowflake) (t : Int) : (NextID sf t).1 = nextState sf t := by
  simp only [NextID]
  split
  · rfl
  · split <;> rfl

lemma NextID_snd (sf : Snowflake) (t : Int) :
    (NextID sf t).2 =
      if (nextState sf t).lastTimestamp ≥ (2 : Int) ^ EpochBits then .epochExhausted
      else .ok (packID (nextState sf t)) := by
  simp only [NextID]
  have h := nextState_Sequence_le sf t
  have hp : ¬ ((nextState sf t).Sequence > (1 <<< SequenceBits) - 1) := by
    have : ((1 <<< SequenceBits) - 1 : Nat) = 4095 := by decide
    omega
  rw [if_neg hp]
  split <;> rfl

lemma lor3_mod (a b c : Nat) (hc : c < 2 ^ 12) :
    (((a <<< 22) ||| (b <<< 12)) ||| c) % 2 ^ 12 = c := by
  apply Nat.eq_of_testBit_eq
  intro i
  rw [Nat.testBit_mod_two_pow]
  by_cases hi : i < 12
  · have h22 : ¬ (22 ≤ i) := by omega
    have h12 : ¬ (12 ≤ i) := by omega
    simp [Nat.testBit_or, Nat.testBit_shiftLeft, hi, h22, h12]
  · have hci : c < 2 ^ i := lt_of_lt_of_le hc (Nat.pow_le_pow_right (by norm_num) (by omega))
    simp [hi, Nat.testBit_lt_two_pow hci]

lemma lor3_mid (a b c : Nat) (hb : b < 2 ^ 10) (hc : c < 2 ^ 12) :
    ((((a <<< 22) ||| (b <<< 12)) ||| c) >>> 12) % 2 ^ 10 = b := by
  apply Nat.eq_of_testBit_eq
  intro i
  rw [Nat.testBit_mod_two_pow]
  by_cases hi : i < 10
  · have h22 : ¬ (22 ≤ 12 + i) := by omega
    have h12 : (12 : Nat) ≤ 12 + i := by omega
    have hci : c < 2 ^ (12 + i) := lt_of_lt_of_le hc (Nat.pow_le_pow_right (by norm_num) (by omega))
    simp [Nat.testBit_shiftRight, Nat.testBit_or, Nat.testBit_shiftLeft, hi, h22, h12,
          Nat.testBit_lt_two_pow hci]
  · have hbi : b < 2 ^ i := lt_of_lt_of_le hb (Nat.pow_le_pow_right (by norm_num) (by omega))
    simp [hi, Nat.testBit_lt_two_pow hbi]

lemma lor3_hi (a b c : Nat) (hb : b < 2 ^ 10) (hc : c < 2 ^ 12) :
    (((a <<< 22) ||| (b <<< 12)) ||| c) >>> 22 = a := by
  apply Nat.eq_of_testBit_eq
  intro i
  have h22 : (22 : Nat) ≤ 22 + i := by omega
  have hbi : b < 2 ^ (10 + i) := lt_of_lt_of_le hb (Nat.pow_le_pow_right (by norm_num) (by omega))
  have hci : c < 2 ^ (22 + i) := lt_of_lt_of_le hc (Nat.pow_le_pow_right (by norm_num) (by omega))
  have hsub : 22 + i - 12 = 10 + i := by omega
  simp [Nat.testBit_shiftRight, Nat.testBit_or, Nat.testBit_shiftLeft, h22, hsub,
        Nat.testBit_lt_two_pow hbi, Nat.testBit_lt_two_pow hci]

lemma lor3_eq_add (a b c : Nat) (hb : b < 2 ^ 10) (hc : c < 2 ^ 12) :
    ((a <<< 22) ||| (b <<< 12)) ||| c = a * 2 ^ 22 + b * 2 ^ 12 + c := by
  have h1 := lor3_mod a b c hc
  have h2 := lor3_mid a b c hb hc
  have h3 := lor3_hi a b c hb hc
  rw [Nat.shiftRight_eq_div_pow] at h2 h3
  omega

lemma and_mask_shift (x m s : Nat) :
    (x &&& ((2 ^ m - 1) <<< s)) >>> s = (x >>> s) % 2 ^ m := by
  apply Nat.eq_of_testBit_eq
  intro i
  rw [Nat.testBit_mod_two_pow]
  have hle : s ≤ s + i := Nat.le_add_right s i
  have hsub : s + i - s = i := by omega
  simp [Nat.testBit_shiftRight, Nat.testBit_and, Nat.testBit_shiftLeft, hle, hsub,
        Bool.and_comm]

lemma and_shifted_mask (id : Nat) :
    (id &&& (((1 <<< MachineIDBits) - 1) <<< SequenceBits)) >>> SequenceBits
      = (id >>> 12) % 2 ^ 10 := by
  have hm : (((1 <<< MachineIDBits) - 1) <<< SequenceBits : Nat) = (2 ^ 10 - 1) <<< 12 := by
    decide
  rw [hm, show (SequenceBits : Nat) = 12 from rfl, and_mask_shift]

lemma DecomposeParts_eq (id : Nat) :
    DecomposeParts id = (id / 2 ^ 22, (id / 2 ^ 12) % 2 ^ 10, id % 2 ^ 12) := by
  unfold DecomposeParts
  refine Prod.ext ?_ (Prod.ext ?_ ?_)
  · show id >>> (MachineIDBits + SequenceBits) = id / 2 ^ 22
    rw [show MachineIDBits + SequenceBits = 22 from rfl, Nat.shiftRight_eq_div_pow]
  · show (id &&& _) >>> SequenceBits = _
    rw [and_shifted_mask, Nat.shiftRight_eq_div_pow]
  · show id &&& ((1 <<< SequenceBits) - 1) = id % 2 ^ 12
    rw [and_seqMask]
    omega

lemma packID_eq_idKey (sf : Snowflake) (h0 : 0 ≤ sf.lastTimestamp)
    (h1 : sf.lastTimestamp < (2 : Int) ^ 42) (h2 : sf.MachineID ≤ 1023)
    (h3 : sf.Sequence ≤ 4095) :
    packID sf = idKey sf := by
  unfold packID idKey
  have he : sf.lastTimestamp % (2 : Int) ^ 64 = sf.lastTimestamp := by
    rw [Int.emod_eq_of_lt h0 (by omega)]
  rw [he]
  have ha : sf.lastTimestamp.toNat < 2 ^ 42 := by omega
  rw [show (MachineIDBits + SequenceBits : Nat) = 22 from rfl,
      show (SequenceBits : Nat) = 12 from rfl]
  have hm1 : sf.lastTimestamp.toNat <<< 22 % 2 ^ 64 = sf.lastTimestamp.toNat <<< 22 := by
    apply Nat.mod_eq_of_lt
    rw [Nat.shiftLeft_eq]
    omega
  have hm2 : sf.MachineID <<< 12 % 2 ^ 64 = sf.MachineID <<< 12 := by
    apply Nat.mod_eq_of_lt
    rw [Nat.shiftLeft_eq]
    omega
  rw [hm1, hm2, lor3_eq_add _ _ _ (by omega) (by omega)]

lemma decompose_packID (sf : Snowflake) (h0 : 0 ≤ sf.lastTimestamp)
    (h1 : sf.lastTimestamp < (2 : Int) ^ 42) (h2 : sf.MachineID ≤ 1023)
    (h3 : sf.Sequence ≤ 4095) :
    DecomposeParts (packID sf) = (sf.lastTimestamp.toNat, sf.MachineID, sf.Sequence) := by
  rw [packID_eq_idKey sf h0 h1 h2 h3, DecomposeParts_eq]
  unfold idKey
  have ha : sf.lastTimestamp.toNat < 2 ^ 42 := by omega
  simp only [Prod.mk.injEq]
  refine ⟨?_, ?_, ?_⟩ <;> omega

lemma nextState_inv (sf : Snowflake) (t : Int) (h : SfInv sf) : SfInv (nextState sf t) := by
  obtain ⟨h0, h3, h2⟩ := h
  rw [nextState_eq sf t h3]
  unfold SfInv
  split
  · next hlt => exact ⟨by simp; omega, by simp, by simpa using h2⟩
  · split
    · exact ⟨by simp; omega, by simp, by simpa using h2⟩
    · exact ⟨by simpa using h0, by simp; omega, by simpa using h2⟩

lemma nextState_key_lt (sf : Snowflake) (t : Int) (h : SfInv sf) :
    idKey sf < idKey (nextState sf t) := by
  obtain ⟨h0, h3, h2⟩ := h
  rw [nextState_eq sf t h3]
  unfold idKey
  split
  · next hlt => simp; omega
  · split
    · next hz => simp; omega
    · next hz => simp; omega

lemma runNextIDs_snd_cons (sf : Snowflake) (t : Int) (rest : List Int) :
    (runNextIDs sf (t :: rest)).2 = (NextID sf t).2 :: (runNextIDs (NextID sf t).1 rest).2 := rfl

lemma succIDs_cons_ok (id : Nat) (rs : List NextIDResult) :
    succIDs (.ok id :: rs) = id :: succIDs rs := rfl

lemma succIDs_cons_err (rs : List NextIDResult) :
    succIDs (.epochExhausted :: rs) = succIDs rs := rfl

lemma runNextIDs_mono (ts : List Int) :
    ∀ sf : Snowflake, SfInv sf →
      List.Pairwise (· < ·) (succIDs (runNextIDs sf ts).2) ∧
      ∀ x ∈ succIDs (runNextIDs sf ts).2, idKey sf < x := by
  induction ts with
  | nil =>
    intro sf h
    exact ⟨by simp [runNextIDs, succIDs], by simp [runNextIDs, succIDs]⟩
  | cons t rest ih =>
    intro sf h
    have hinv : SfInv (nextState sf t) := nextState_inv sf t h
    have hkey : idKey sf < idKey (nextState sf t) := nextState_key_lt sf t h
    obtain ⟨ihp, ihb⟩ := ih (nextState sf t) hinv
    rw [runNextIDs_snd_cons, NextID_fst, NextID_snd]
    split
    · rw [succIDs_cons_err]
      exact ⟨ihp, fun x hx => lt_trans hkey (ihb x hx)⟩
    · next hguard =>
      have h42 : (nextState sf t).lastTimestamp < (2 : Int) ^ 42 := by
        simpa [EpochBits] using lt_of_not_ge hguard
      have hid : packID (nextState sf t) = idKey (nextState sf t) :=
        packID_eq_idKey _ hinv.1 h42 hinv.2.2 hinv.2.1
      rw [succIDs_cons_ok]
      refine ⟨List.Pairwise.cons (fun y hy => ?_) ihp, fun x hx => ?_⟩
      · rw [hid]; exact ihb y hy
      · rcases List.mem_cons.mp hx with rfl | hx'
        · rw [hid]; exact hkey
        · exact lt_trans hkey (ihb x hx')

lemma runNextIDs_decompose (ts : List Int) :
    ∀ sf : Snowflake, SfInv sf →
      ∀ id ∈ succIDs (runNextIDs sf ts).2,
        (DecomposeParts id).2.1 = sf.MachineID ∧ (DecomposeParts id).2.2 ≤ 4095 := by
  induction ts with
  | nil =>
    intro sf _ id hid
    simp [runNextIDs, succIDs] at hid
  | cons t rest ih =>
    intro sf h id hid
    have hinv : SfInv (nextState sf t) := nextState_inv sf t h
    have hmid : (nextState sf t).MachineID = sf.MachineID := nextState_MachineID sf t
    rw [runNextIDs_snd_cons, NextID_fst, NextID_snd] at hid
    split at hid
    · rw [succIDs_cons_err] at hid
      have := ih (nextState sf t) hinv id hid
      rwa [hmid] at this
    · next hguard =>
      have h42 : (nextState sf t).lastTimestamp < (2 : Int) ^ 42 := by
        simpa [EpochBits] using lt_of_not_ge hguard
      rw [succIDs_cons_ok] at hid
      rcases List.mem_cons.mp hid with rfl | hid'
      · rw [decompose_packID _ hinv.1 h42 hinv.2.2 hinv.2.1]
        exact ⟨hmid, hinv.2.1⟩
      · have := ih (nextState sf t) hinv id hid'
        rwa [hmid] at this

lemma NextID_exhausted_iff (sf : Snowflake) (t : Int) :
    (NextID sf t).2 = NextIDResult.epochExhausted ↔
      (2 : Int) ^ EpochBits ≤ (NextID sf t).1.lastTimestamp := by
  rw [NextID_snd, NextID_fst]
  split
  · next hg => simpa using hg
  · next hg => simp [hg]

lemma exhausted_stays (sf : Snowflake) (t : Int)
    (h : (2 : Int) ^ EpochBits ≤ sf.lastTimestamp) :
    (NextID sf t).2 = .epochExhausted ∧
      (2 : Int) ^ EpochBits ≤ (NextID sf t).1.lastTimestamp := by
  have h' : (2 : Int) ^ EpochBits ≤ (NextID sf t).1.lastTimestamp := by
    rw [NextID_fst]
    exact le_trans h (nextState_lastTimestamp_mono sf t)
  exact ⟨(NextID_exhausted_iff sf t).mpr h', h'⟩

lemma runNextIDs_exhausted (ts : List Int) :
    ∀ sf : Snowflake, (2 : Int) ^ EpochBits ≤ sf.lastTimestamp →
      ∀ r ∈ (runNextIDs sf ts).2, r = .epochExhausted := by
  induction ts with
  | nil =>
    intro sf _ r hr
    simp [runNextIDs] at hr
  | cons t rest ih =>
    intro sf h r hr
    obtain ⟨he, hge⟩ := exhausted_stays sf t h
    rw [runNextIDs_snd_cons] at hr
    rcases List.mem_cons.mp hr with rfl | hr'
    · exact he
    · exact ih (NextID sf t).1 hge r hr'

lemma ldiff_1023_mod (n : Nat) : Nat.ldiff 1023 n = Nat.ldiff 1023 (n % 1024) := by
  apply Nat.eq_of_testBit_eq
  intro i
  rw [Nat.testBit_ldiff, Nat.testBit_ldiff,
      show (1023 : Nat) = 2 ^ 10 - 1 by norm_num,
      show (1024 : Nat) = 2 ^ 10 by norm_num, Nat.testBit_mod_two_pow,
      Nat.testBit_two_pow_sub_one]
  by_cases hi : i < 10 <;> simp [hi]

set_option maxRecDepth 8000 in
lemma sub_1023_eq_xor : ∀ m, m < 1024 → 1023 - m = 1023 ^^^ m := by decide

lemma ldiff_1023_small (m : Nat) (hm : m < 1024) : Nat.ldiff 1023 m = 1023 - m := by
  rw [sub_1023_eq_xor m hm]
  apply Nat.eq_of_testBit_eq
  intro i
  rw [Nat.testBit_ldiff, Nat.testBit_xor,
      show (1023 : Nat) = 2 ^ 10 - 1 by norm_num, Nat.testBit_two_pow_sub_one]
  by_cases hi : i < 10
  · simp [hi]
  · have hm' : m < 2 ^ 10 := by omega
    have hmi : m < 2 ^ i :=
      lt_of_lt_of_le hm' (Nat.pow_le_pow_right (by norm_num) (by omega))
    simp [hi, Nat.testBit_lt_two_pow hmi]

lemma land_maxNodeID (m : Int) : Int.land m maxNodeID = m % 1024 := by
  have hmax : maxNodeID = (1023 : Int) := by norm_num [maxNodeID, MachineIDBits]
  rw [hmax]
  cases m with
  | ofNat n =>
    have h1 : Int.land (Int.ofNat n) 1023 = Int.ofNat (n &&& 1023) := rfl
    have h2 : n &&& 1023 = n % 1024 := by
      have h := Nat.and_pow_two_sub_one_eq_mod n 10
      norm_num at h
      exact h
    rw [h1, h2]
    rfl
  | negSucc n =>
    have h1 : Int.land (Int.negSucc n) 1023 = ((Nat.ldiff 1023 n : Nat) : Int) := rfl
    have hub : n % 1024 < 1024 := Nat.mod_lt _ (by norm_num)
    rw [h1, ldiff_1023_mod, ldiff_1023_small (n % 1024) hub, Int.negSucc_eq]
    omega

lemma NewSnowflake_some (g now st : GoTime) (machineID : Int) (sf : Snowflake)
    (g' : GoTime) (h : NewSnowflake g now st machineID = (some sf, g')) :
    sf.MachineID = (machineID % (2 : Int) ^ MachineIDBits).toNat ∧ SfInv sf := by
  unfold NewSnowflake at h
  split at h
  · exact absurd (congrArg Prod.fst h) (by simp)
  · simp only [Prod.mk.injEq, Option.some.injEq] at h
    obtain ⟨hsf, hg⟩ := h
    subst hsf
    have hl : Int.land machineID maxNodeID = machineID % 1024 := land_maxNodeID machineID
    constructor
    · show ((Int.land machineID maxNodeID) % (2 : Int) ^ 64).toNat = _
      rw [hl]
      have : (machineID % 1024) % (2 : Int) ^ 64 = machineID % 1024 := by omega
      rw [this, show ((2 : Int) ^ MachineIDBits) = 1024 by norm_num [MachineIDBits]]
    · refine ⟨le_refl 0, by norm_num, ?_⟩
      show ((Int.land machineID maxNodeID) % (2 : Int) ^ 64).toNat ≤ 1023
      rw [hl]
      omega

/-! ### Claim theorems -/

/-- C1: for a single Generator instance, the identifiers returned by successive
`NextID` calls, taken in lock-acquisition order, are strictly increasing when
compared as unsigned 64-bit integers: along any trace of calls from a valid
state, each successful call's identifier strictly exceeds every earlier
successful call's identifier. -/
theorem nextID_ids_strictly_increasing (sf : Snowflake) (ts : List Int) (h : SfInv sf) :
    List.Pairwise (· < ·) (succIDs (runNextIDs sf ts).2) :=
  (runNextIDs_mono ts sf h).1

theorem nextID_ids_strictly_increasing_witness :
    SfInv ⟨0, 34, 0, 0⟩ ∧
      List.Pairwise (· < ·) (succIDs (runNextIDs ⟨0, 34, 0, 0⟩ [1, 1, 2]).2) :=
  ⟨⟨by decide, by decide, by decide⟩,
   nextID_ids_strictly_increasing ⟨0, 34, 0, 0⟩ [1, 1, 2] ⟨by decide, by decide, by decide⟩⟩

/-- C2: `NextID` fails exactly when the generator's `lastTimestamp` value (as
updated by the call, which is the value the guard inspects) is at least
`2 ^ EpochBits = 2 ^ 42`; in that case it returns the error and no identifier,
and the guard is evaluated on every call (the equivalence holds for every state
and every clock reading). -/
theorem nextID_fails_iff_epoch_exhausted (sf : Snowflake) (t : Int) :
    (NextID sf t).2 = NextIDResult.epochExhausted ↔
      (NextID sf t).1.lastTimestamp ≥ (2 : Int) ^ EpochBits :=
  NextID_exhausted_iff sf t

/-- C3: once a `NextID` call returns the epoch-exhausted error, every
subsequent call on the same instance returns the error as well, whatever the
wall clock does afterwards. -/
theorem epoch_exhausted_is_permanent (sf : Snowflake) (t : Int) (ts : List Int)
    (h : (NextID sf t).2 = NextIDResult.epochExhausted) :
    ∀ r ∈ (runNextIDs (NextID sf t).1 ts).2, r = NextIDResult.epochExhausted :=
  runNextIDs_exhausted ts (NextID sf t).1 ((NextID_exhausted_iff sf t).mp h)

theorem epoch_exhausted_is_permanent_witness :
    (NextID ⟨0, 34, 0, 4398046511104⟩ 0).2 = NextIDResult.epochExhausted ∧
      ((runNextIDs (NextID ⟨0, 34, 0, 4398046511104⟩ 0).1 [5, -3]).2.all
        fun r => decide (r = NextIDResult.epochExhausted)) = true := by
  refine ⟨by decide, ?_⟩
  apply List.all_eq_true.mpr
  intro r hr
  have h := epoch_exhausted_is_permanent ⟨0, 34, 0, 4398046511104⟩ 0 [5, -3] (by decide) r hr
  simp [h]

/-- C4 (demonstration of the code bug): constructing a generator with a custom
epoch reassigns the package-global `epochStart` (the line marked `// RM ME`),
so a subsequent zero-epoch construction picks up the custom epoch
(`StartTime = 1600000000000`) instead of the built-in default
(2019-04-01, `StartTime = 1554076800000`). -/
theorem default_epoch_mutated_by_custom_construction :
    (NewSnowflake epochStartDefault ⟨1700000000000000000, false⟩
        ⟨1600000000000000000, false⟩ 1).2 = ⟨1600000000000000000, false⟩ ∧
      ((NewSnowflake (NewSnowflake epochStartDefault ⟨1700000000000000000, false⟩
          ⟨1600000000000000000, false⟩ 1).2 ⟨1700000000000000000, false⟩ zeroGoTime
          1).1.map Snowflake.StartTime) = some 1600000000000 ∧
      timeToSnowflakeUnit epochStartDefault = 1554076800000 := by
  decide

/-- C5: the state update of `NextID` follows the specified algorithm: on tick
advance `lastTimestamp` adopts the current tick and the sequence resets to 0;
otherwise the sequence is incremented modulo `2 ^ 12`, and when the increment
wraps to 0 the timestamp is advanced by exactly one unit; consequently, once
4096 identifiers have been issued for a tick (sequence at 4095), the next
successful identifier's timestamp field strictly exceeds that tick. -/
theorem nextID_update_follows_spec (sf : Snowflake) (t : Int) (h : SfInv sf) :
    (sf.lastTimestamp < t - sf.StartTime →
       (NextID sf t).1 = { sf with lastTimestamp := t - sf.StartTime, Sequence := 0 }) ∧
    (¬ sf.lastTimestamp < t - sf.StartTime → (sf.Sequence + 1) % 4096 ≠ 0 →
       (NextID sf t).1 = { sf with Sequence := (sf.Sequence + 1) % 4096 }) ∧
    (¬ sf.lastTimestamp < t - sf.StartTime → (sf.Sequence + 1) % 4096 = 0 →
       (NextID sf t).1 = { sf with Sequence := 0,
                                   lastTimestamp := sf.lastTimestamp + 1 }) ∧
    (sf.Sequence = 4095 → ∀ id, (NextID sf t).2 = .ok id →
       sf.lastTimestamp.toNat < (DecomposeParts id).1) := by
  have hseq := h.2.1
  refine ⟨?_, ?_, ?_, ?_⟩
  · intro hlt
    rw [NextID_fst, nextState_eq sf t hseq, if_pos hlt]
  · intro hlt hnz
    rw [NextID_fst, nextState_eq sf t hseq, if_neg hlt, if_neg hnz]
  · intro hlt hz
    rw [NextID_fst, nextState_eq sf t hseq, if_neg hlt, if_pos hz]
  · intro h4095 id hok
    have hinv1 : SfInv (nextState sf t) := nextState_inv sf t h
    rw [NextID_snd] at hok
    split at hok
    · simp at hok
    · next hguard =>
      have h42 : (nextState sf t).lastTimestamp < (2 : Int) ^ 42 := by
        simpa [EpochBits] using lt_of_not_ge hguard
      injection hok with hid
      rw [← hid, decompose_packID _ hinv1.1 h42 hinv1.2.2 hinv1.2.1]
      show sf.lastTimestamp.toNat < (nextState sf t).lastTimestamp.toNat
      have h0 := h.1
      rw [nextState_eq sf t hseq]
      by_cases hlt : sf.lastTimestamp < t - sf.StartTime
      · rw [if_pos hlt]
        simp
        omega
      · rw [if_neg hlt, if_pos (by rw [h4095])]
        simp
        omega

theorem nextID_update_follows_spec_witness :
    SfInv ⟨0, 34, 4095, 5⟩ ∧
      (NextID ⟨0, 34, 4095, 5⟩ 0).1 = ⟨0, 34, 0, 6⟩ := by
  have h : SfInv ⟨0, 34, 4095, 5⟩ := ⟨by decide, by decide, by decide⟩
  refine ⟨h, ?_⟩
  have hspec := nextID_update_follows_spec ⟨0, 34, 4095, 5⟩ 0 h
  exact hspec.2.2.1 (by decide) (by decide)

/-- C6: for every 64-bit input, `DecomposeParts` returns, without error or
precondition, the triple `(id >>> 22, (id >>> 12) &&& (2^10 - 1),
id &&& (2^12 - 1))`, i.e. the high 42 bits, the next 10 bits and the low
12 bits of the packed layout `timestamp(42) << 22 | nodeID(10) << 12 |
sequence(12)`, whose packing it inverts. -/
theorem decomposeParts_bit_layout :
    (∀ id : Nat, id < 2 ^ 64 →
       DecomposeParts id
         = (id >>> 22, (id >>> 12) &&& (2 ^ 10 - 1), id &&& (2 ^ 12 - 1))) ∧
    (∀ tsU nid seq : Nat, tsU < 2 ^ 42 → nid < 2 ^ 10 → seq < 2 ^ 12 →
       DecomposeParts ((tsU <<< 22) ||| (nid <<< 12) ||| seq) = (tsU, nid, seq)) := by
  constructor
  · intro id _
    rw [DecomposeParts_eq]
    refine Prod.ext ?_ (Prod.ext ?_ ?_)
    · show id / 2 ^ 22 = id >>> 22
      rw [Nat.shiftRight_eq_div_pow]
    · show (id / 2 ^ 12) % 2 ^ 10 = (id >>> 12) &&& (2 ^ 10 - 1)
      rw [Nat.and_pow_two_sub_one_eq_mod, Nat.shiftRight_eq_div_pow]
    · show id % 2 ^ 12 = id &&& (2 ^ 12 - 1)
      rw [Nat.and_pow_two_sub_one_eq_mod]
  · intro tsU nid seq hts hnid hseq
    rw [lor3_eq_add tsU nid seq hnid hseq, DecomposeParts_eq]
    simp only [Prod.mk.injEq]
    refine ⟨?_, ?_, ?_⟩ <;> omega

theorem decomposeParts_bit_layout_witness :
    DecomposeParts 5000000000
        = (5000000000 >>> 22, (5000000000 >>> 12) &&& (2 ^ 10 - 1),
           5000000000 &&& (2 ^ 12 - 1)) ∧
      DecomposeParts ((3 <<< 22) ||| (34 <<< 12) ||| 7) = (3, 34, 7) :=
  ⟨decomposeParts_bit_layout.1 5000000000 (by norm_num),
   decomposeParts_bit_layout.2 3 34 7 (by norm_num) (by norm_num) (by norm_num)⟩

/-- C7: every identifier successfully produced by a generator built by
`NewSnowflake` decomposes to a node id equal to the generator's configured
machine id — the constructor input masked to its low 10 bits, for every
integer input including out-of-range and negative ones — and to a sequence
value in `[0, 4095]`. -/
theorem nextID_decompose_roundtrip (g now st : GoTime) (machineID : Int)
    (sf : Snowflake) (g' : GoTime)
    (hc : NewSnowflake g now st machineID = (some sf, g')) (ts : List Int) :
    ∀ id ∈ succIDs (runNextIDs sf ts).2,
      (DecomposeParts id).2.1 = (machineID % (2 : Int) ^ MachineIDBits).toNat ∧
        (DecomposeParts id).2.2 ≤ 4095 := by
  obtain ⟨hmid, hinv⟩ := NewSnowflake_some g now st machineID sf g' hc
  intro id hid
  have h := runNextIDs_decompose ts sf hinv id hid
  rwa [hmid] at h

theorem nextID_decompose_roundtrip_witness :
    NewSnowflake epochStartDefault ⟨1700000000000000000, false⟩ zeroGoTime 34
        = (some ⟨1554076800000, 34, 0, 0⟩, epochStartDefault) ∧
      ((succIDs (runNextIDs ⟨1554076800000, 34, 0, 0⟩ [1554076800001]).2).all
        fun id =>
          decide ((DecomposeParts id).2.1
              = ((34 : Int) % (2 : Int) ^ MachineIDBits).toNat ∧
            (DecomposeParts id).2.2 ≤ 4095)) = true := by
  refine ⟨by decide, ?_⟩
  apply List.all_eq_true.mpr
  intro id hid
  have h := nextID_decompose_roundtrip epochStartDefault ⟨1700000000000000000, false⟩
    zeroGoTime 34 ⟨1554076800000, 34, 0, 0⟩ epochStartDefault (by decide)
    [1554076800001] id hid
  simpa using h

/-- C8: the defensive fatal check of `NextID` is unreachable: after the
sequence update the sequence value never exceeds `2 ^ 12 - 1`, so no call, on
any state and any clock reading, ends in the panic branch. -/
theorem nextID_defensive_check_unreachable (sf : Snowflake) (t : Int) :
    (NextID sf t).1.Sequence ≤ 2 ^ SequenceBits - 1 ∧
      (NextID sf t).2 ≠ NextIDResult.panicked := by
  constructor
  · rw [NextID_fst, show (2 : Nat) ^ SequenceBits - 1 = 4095 by norm_num [SequenceBits]]
    exact nextState_Sequence_le sf t
  · rw [NextID_snd]
    split <;> simp

/-- C9: construction with an epoch instant strictly later than the current
wall-clock time fails: `NewSnowflake` returns the nil (unusable) instance and
leaves the global epoch untouched. -/
theorem newSnowflake_rejects_future_epoch (g now starttime : GoTime)
    (machineID : Int) (h : starttime.After now = true) :
    NewSnowflake g now starttime machineID = (none, g) := by
  unfold NewSnowflake
  rw [if_pos h]

theorem newSnowflake_rejects_future_epoch_witness :
    GoTime.After ⟨2000000000000000000, false⟩ ⟨1700000000000000000, false⟩ = true ∧
      NewSnowflake epochStartDefault ⟨1700000000000000000, false⟩
          ⟨2000000000000000000, false⟩ 34
        = (none, epochStartDefault) :=
  ⟨by decide,
   newSnowflake_rejects_future_epoch epochStartDefault ⟨1700000000000000000, false⟩
     ⟨2000000000000000000, false⟩ 34 (by decide)⟩

/-- C10: `lastTimestamp` is monotone non-decreasing across `NextID` calls on
any state and any clock reading, even when the clock reads an earlier time
than before: it is only ever overwritten by a strictly larger current tick or
incremented by one. -/
theorem lastTick_monotone (sf : Snowflake) (t : Int) :
    sf.lastTimestamp ≤ (NextID sf t).1.lastTimestamp ∧
      ((NextID sf t).1.lastTimestamp = sf.lastTimestamp ∨
       (NextID sf t).1.lastTimestamp = sf.lastTimestamp + 1 ∨
       (sf.lastTimestamp < t - sf.StartTime ∧
        (NextID sf t).1.lastTimestamp = t - sf.StartTime)) := by
  rw [NextID_fst]
  refine ⟨nextState_lastTimestamp_mono sf t, ?_⟩
  rw [nextState_cases]
  split
  · next hlt => exact Or.inr (Or.inr ⟨hlt, by simp⟩)
  · split
    · exact Or.inr (Or.inl (by simp))
    · exact Or.inl (by simp)
